import Mathlib

/-!
Verification development for the python-hover helper core.

The embedding below translates the two algorithmically substantial modules
of the repository into Lean:

* `src/extension/python-helper/resolver.py` — dotted-path symbol resolution
  (`resolve_symbol`, `_resolve_dotted_path`, `_traverse_attributes`,
  `_describe_keyword`, `_describe`, `_get_stdlib_url`, `_is_stdlib`);
* `src/extension/python-helper/identifier.py` — cursor-position construct
  identification (`identify_at_position`, `_map_node_to_type`).

The Python runtime surface the resolver touches (the keyword table, the
builtins namespace, `importlib.import_module`, `sys.modules`,
`sys.builtin_module_names`, `sys.stdlib_module_names`,
`importlib.util.find_spec`, the captured `pydoc.help` output and the
interpreter version) is packaged as an explicit environment `Env`;
a Python object is modelled by an `Entity` carrying exactly the
introspection data the source reads (`__name__`, `__module__`,
`__qualname__`, docstring, callability, signature extraction outcome,
class-ness, exception-ness, `str` form, object identity) together with its
attribute table.  A raised exception that the source catches is modelled by
`Option`/`Except`; `resolve_symbol` itself is total, mirroring the
outermost `try/except` that converts every internal failure into an
error record.
-/

namespace PyHover

/-- A JSON-serializable Python value appearing in the result dictionaries. -/
inductive Value where
  | none
  | str (s : String)
  | bool (b : Bool)
deriving Repr, DecidableEq

/-- A Python dict literal with string keys, in insertion order. -/
abbrev PyDict := List (String × Value)

/-- The introspection data of one Python object, as read by `_describe`
and `_get_stdlib_url`. -/
structure EntityData where
  /-- `inspect.ismodule(obj)` -/
  isModule : Bool
  /-- `obj.__name__` when present -/
  objName : Option String
  /-- `obj.__module__` when present -/
  objModule : Option String
  /-- `obj.__qualname__` when present -/
  objQualname : Option String
  /-- `inspect.getdoc(obj)` -/
  docstring : Option String
  /-- `callable(obj)` -/
  isCallable : Bool
  /-- `str(inspect.signature(obj))` when extraction succeeds, `none` when it
  raises `ValueError` or `TypeError` -/
  sigResult : Option String
  /-- `inspect.isclass(obj) or isinstance(obj, type)` -/
  isClass : Bool
  /-- `issubclass(obj, BaseException)` (only consulted for classes) -/
  isBaseException : Bool
  /-- `str(obj)` -/
  strRepr : String
  /-- object identity, modelling the Python `is` comparison -/
  objId : Nat
deriving Repr, DecidableEq

/-- A Python object: its introspection data plus its attribute table
(the attributes reachable through `getattr`). -/
inductive Entity where
  | mk (data : EntityData) (attrs : List (String × Entity))

/-- Introspection data of an entity. -/
def Entity.data : Entity → EntityData
  | .mk d _ => d

/-- Attribute table of an entity. -/
def Entity.attrs : Entity → List (String × Entity)
  | .mk _ a => a

/-- The ambient Python runtime state read by the resolver. -/
structure Env where
  /-- the reserved words recognised by `keyword.iskeyword` -/
  keywords : List String
  /-- the attribute table of the `builtins` module -/
  builtinsAttrs : List (String × Entity)
  /-- successful outcomes of `importlib.import_module`; a name that is
  absent models an import that raises (any exception) -/
  imports : List (String × Entity)
  /-- `sys.modules`, in iteration order -/
  sysModules : List (String × Entity)
  /-- `sys.builtin_module_names` -/
  builtinModuleNames : List String
  /-- `sys.stdlib_module_names` when the attribute exists (Python 3.10+) -/
  stdlibModuleNames : Option (List String)
  /-- `importlib.util.find_spec(root).origin`; an absent name models a
  missing spec, a missing origin, or a raised exception -/
  specOrigins : List (String × String)
  /-- `os.path.dirname(os.__file__)` -/
  osLibPath : String
  /-- the interpreter version as `major.minor` -/
  pyVersion : String
  /-- the text `pydoc.help` prints for each keyword -/
  keywordHelp : List (String × String)

/-! ### Character-level string primitives

The Python string operations the resolver uses, implemented by structural
recursion over the character list so that every definition evaluates
inside the kernel. -/

/-- Python `text.split(sep)` for a one-character separator, on character
lists: always returns at least one piece, and an empty input yields one
empty piece, as in Python. -/
def splitChAux (c : Char) : List Char → List (List Char)
  | [] => [[]]
  | a :: rest =>
    match splitChAux c rest with
    | h :: t => if a = c then [] :: h :: t else (a :: h) :: t
    | [] => [[a]]

/-- Python `text.split(".")`. -/
def pySplitDots (s : String) : List String :=
  (splitChAux '.' s.toList).map String.mk

/-- Python `text.startswith(pre)`. -/
def pyStartsWith (s pre : String) : Bool :=
  pre.toList.isPrefixOf s.toList

/-- Python `text[n:]` (drop the first `n` characters). -/
def pyDrop (s : String) (n : Nat) : String :=
  String.mk (s.toList.drop n)

/-- Python `ch in text` for a single character. -/
def pyContainsChar (s : String) (c : Char) : Bool :=
  s.toList.contains c

/-- Python `text.lower()`. -/
def pyLower (s : String) : String :=
  String.mk (s.toList.map Char.toLower)

/-- Python `sep.join(pieces)` for the `.` separator
(`".".join(parts[:i])`). -/
def pyJoinDots : List String → String
  | [] => ""
  | [s] => s
  | s :: rest => s ++ "." ++ pyJoinDots rest

/-- Occurrence of one character list inside another. -/
def listHasInfix (needle : List Char) : List Char → Bool
  | [] => needle.isEmpty
  | a :: t => needle.isPrefixOf (a :: t) || listHasInfix needle t

/-- `needle in hay` on strings (Python substring containment). -/
def strContainsSub (needle hay : String) : Bool :=
  listHasInfix needle.toList hay.toList

/-- `_is_stdlib` from `resolver.py`: standard-library membership of a
module name, decided by the root segment against
`sys.builtin_module_names`, then `sys.stdlib_module_names` when present,
and otherwise by the resolved file origin of the root package. -/
def _is_stdlib (env : Env) (module_name : String) : Bool :=
  if module_name == "" then false
  else
    let root_pkg := (pySplitDots module_name).headD ""
    if env.builtinModuleNames.contains root_pkg then true
    else
      match env.stdlibModuleNames with
      | some names => names.contains root_pkg
      | none =>
        match List.lookup root_pkg env.specOrigins with
        | none => false
        | some origin0 =>
          let origin := pyLower origin0
          if strContainsSub "site-packages" origin || strContainsSub "dist-packages" origin then
            false
          else if pyStartsWith origin (pyLower env.osLibPath) then true
          else false

/-- The versioned documentation base path used by `_get_stdlib_url`. -/
def urlBase (env : Env) : String :=
  "https://docs.python.org/" ++ env.pyVersion ++ "/library"

/-- `_get_stdlib_url` from `resolver.py`: routes a standard-library entity
to its documentation page and anchor. -/
def _get_stdlib_url (env : Env) (module_name qualname : String) (obj : Entity) : String :=
  let base := urlBase env
  if module_name == "builtins" then
    if obj.data.isClass then
      if obj.data.isBaseException then base ++ "/exceptions.html#" ++ qualname
      else base ++ "/stdtypes.html#" ++ qualname
    else if obj.data.isCallable then
      if pyContainsChar qualname '.' then base ++ "/stdtypes.html#" ++ qualname
      else base ++ "/functions.html#" ++ qualname
    else base ++ "/" ++ module_name ++ ".html#" ++ qualname
  else base ++ "/" ++ module_name ++ ".html#" ++ qualname

/-- The `for alias, mod in sys.modules.items()` loop inside `_describe`:
scan the registry for an alias of the chosen module object, rewriting the
chosen name only when the alias is literally `os.path` (the loop body
assigns and breaks in exactly that branch). -/
def _alias_scan : List (String × Entity) → Entity → String → String
  | [], _, fm => fm
  | (nm, m) :: rest, mo, fm =>
    if m.data.objId == mo.data.objId && nm != fm && nm == "os.path" then nm
    else _alias_scan rest mo fm

/-- Wrap an optional string as a dict value. -/
def optStr : Option String → Value
  | some s => Value.str s
  | Option.none => Value.none

/-- The module computation at the top of `_describe`: `defined_module`
read from the entity (its `__name__` for modules, its `__module__`
otherwise), then `final_module = defined_module or module_name`, then the
`sys.modules` alias rewrite when the result is standard-library. -/
def finalModuleOf (env : Env) (obj : Entity) (module_name : String) : String :=
  let defined_module : Option String :=
    if obj.data.isModule then obj.data.objName else obj.data.objModule
  let final_module0 : String :=
    match defined_module with
    | some s => if s == "" then module_name else s
    | none => module_name
  if final_module0 != "" && _is_stdlib env final_module0 then
    match List.lookup final_module0 env.sysModules with
    | some module_obj => _alias_scan env.sysModules module_obj final_module0
    | none => final_module0
  else final_module0

/-- `_describe` from `resolver.py`: builds the metadata record for a
resolved entity. -/
def _describe (env : Env) (obj : Entity) (module_name : String) (name : String) : PyDict :=
  let final_module : String := finalModuleOf env obj module_name
  let signature : Option String :=
    if obj.data.isCallable then obj.data.sigResult else none
  let qualname : String :=
    match obj.data.objQualname with
    | some q => q
    | none =>
      if name == "" then
        match obj.data.objName with
        | some n => n
        | none => obj.data.strRepr
      else name
  let url : Option String :=
    if _is_stdlib env final_module then
      some (_get_stdlib_url env final_module qualname obj)
    else none
  [("docstring", optStr obj.data.docstring),
   ("signature", optStr signature),
   ("module", Value.str final_module),
   ("qualname", Value.str qualname),
   ("is_stdlib", Value.bool (_is_stdlib env final_module)),
   ("url", optStr url)]

/-- `_describe_keyword` from `resolver.py`: the record for a reserved word,
with the captured `pydoc.help` text as docstring. -/
def _describe_keyword (env : Env) (name : String) : PyDict :=
  [("docstring", Value.str ((List.lookup name env.keywordHelp).getD "")),
   ("signature", Value.none),
   ("module", Value.str "builtins"),
   ("qualname", Value.str name),
   ("kind", Value.str "keyword"),
   ("is_stdlib", Value.bool true)]

/-- `_traverse_attributes` from `resolver.py`: successive `getattr`;
`none` models the raised `AttributeError`. -/
def _traverse_attributes (obj : Entity) (segs : List String) : Option Entity :=
  match segs with
  | [] => some obj
  | p :: rest =>
    match List.lookup p obj.attrs with
    | some next => _traverse_attributes next rest
    | none => none

/-- The `for i in range(len(parts), 0, -1)` loop of `_resolve_dotted_path`
(Strategy A, import descent).  The fuel argument is the Python loop
variable `i`: at fuel `j+1` the prefix of length `j+1` is tried; a
failed import or a failed attribute traversal falls through to fuel
`j`. -/
def _descend (env : Env) (segs : List String) (path : String) : Nat → Option PyDict
  | 0 => none
  | j+1 =>
    let module_path := pyJoinDots (segs.take (j+1))
    let remainder := segs.drop (j+1)
    match List.lookup module_path env.imports with
    | none => _descend env segs path j
    | some m =>
      match _traverse_attributes m remainder with
      | some obj => some (_describe env obj module_path path)
      | none => _descend env segs path j

/-- One import-descent step fails: the prefix of length `j+1` does
not import, or it imports but the remaining segments do not
traverse. -/
def descentStepFails (env : Env) (segs : List String) (j : Nat) : Bool :=
  match List.lookup (pyJoinDots (segs.take (j+1))) env.imports with
  | none => true
  | some m => (_traverse_attributes m (segs.drop (j+1))).isNone

/-- The root-builtin fallback (Strategy B) fails: the first segment is not
in the builtins namespace, or the remaining segments do not traverse. -/
def fallbackFails (env : Env) (segs : List String) : Bool :=
  match List.lookup (segs.headD "") env.builtinsAttrs with
  | none => true
  | some o => (_traverse_attributes o (segs.drop 1)).isNone

/-- `_resolve_dotted_path` from `resolver.py`: import descent, then the
root-builtin fallback, else the raised `ImportError` (modelled as
`Except.error` carrying the exception message). -/
def _resolve_dotted_path (env : Env) (path : String) : Except String PyDict :=
  let segs := pySplitDots path
  match _descend env segs path segs.length with
  | some d => Except.ok d
  | none =>
    match List.lookup (segs.headD "") env.builtinsAttrs with
    | some obj =>
      match _traverse_attributes obj (segs.drop 1) with
      | some obj2 => Except.ok (_describe env obj2 "builtins" path)
      | none => Except.error ("Could not resolve " ++ path)
    | none => Except.error ("Could not resolve " ++ path)

/-- The outcome of `resolve_symbol`: a structured record or an
`error: text` record. -/
inductive ResolveResult where
  | ok (d : PyDict)
  | error (msg : String)
deriving Repr, DecidableEq

/-- Step 2 of `resolve_symbol` (normalize the symbol): when the name
begins with the literal `builtins.` and the first segment of the remainder
exists in the builtins namespace, rewrite the name to the remainder. -/
def stripBuiltins (env : Env) (symbol_name : String) : String :=
  if pyStartsWith symbol_name "builtins." then
    let candidate := pyDrop symbol_name 9
    let root := (pySplitDots candidate).headD ""
    if (List.lookup root env.builtinsAttrs).isSome then candidate else symbol_name
  else symbol_name

/-- `resolve_symbol` from `resolver.py`: keyword check, then the
`builtins.` prefix strip, then `_resolve_dotted_path`, with every raised
exception converted to an error record by the outermost `try/except`. -/
def resolve_symbol (env : Env) (symbol_name : String) : ResolveResult :=
  if env.keywords.contains symbol_name then
    ResolveResult.ok (_describe_keyword env symbol_name)
  else
    match _resolve_dotted_path env (stripBuiltins env symbol_name) with
    | Except.ok d => ResolveResult.ok d
    | Except.error e => ResolveResult.error e

/-! ## Identifier: `identify_at_position` from `identifier.py` -/

/-- The position attributes of an AST node (`lineno`, `end_lineno`,
`col_offset`, `end_col_offset`); lines 1-based, columns 0-based. -/
structure Span where
  lineno : Int
  end_lineno : Int
  col_offset : Int
  end_col_offset : Int
deriving Repr, DecidableEq

/-- The node taxonomy `_map_node_to_type` distinguishes.  Constant nodes
are split by the runtime type of their value, as the source tests with
`isinstance`. -/
inductive NodeKind where
  | listLit | listComp | dictLit | dictComp | setLit | setComp | tupleLit
  | joinedStr
  | constStr | constBool | constInt | constFloat | constNone | constOther
  | functionDef (fname : String)
  | asyncFunctionDef (fname : String)
  | classDef (cname : String)
  | moduleNode
  | otherNode
deriving Repr, DecidableEq

/-- A parsed AST node: its kind, its position attributes when it carries
any (the `hasattr(node, "lineno")` guard), and its child nodes in field
order (`ast.iter_fields` flattened, as the parent-map construction
iterates them). -/
inductive PyAst where
  | mk (kind : NodeKind) (span : Option Span) (children : List PyAst)

/-- Kind tag of a node. -/
def PyAst.kind : PyAst → NodeKind
  | .mk k _ _ => k

/-- Position attributes of a node. -/
def PyAst.span : PyAst → Option Span
  | .mk _ s _ => s

/-- Child nodes of a node. -/
def PyAst.children : PyAst → List PyAst
  | .mk _ _ c => c

/-- `ast.walk`, paired with the parent map of `identify_at_position`:
a breadth-first enumeration of all nodes, each carried together with its
chain of ancestors (immediate parent first), which is exactly the data the
identity-keyed `parents` dictionary provides to `_map_node_to_type`. -/
def walkP : List (PyAst × List PyAst) → List (PyAst × List PyAst)
  | [] => []
  | (n, anc) :: rest =>
    (n, anc) :: walkP (rest ++ n.children.map (fun c => (c, n :: anc)))
termination_by q => (q.map (fun p => sizeOf p.1)).sum
decreasing_by
  have hl : ∀ l : List PyAst, (l.map sizeOf).sum < sizeOf l := by
    intro l
    induction l with
    | nil => simp
    | cons a t ih => simp only [List.map_cons, List.sum_cons, List.cons.sizeOf_spec]; omega
  have h : (n.children.map sizeOf).sum < sizeOf n := by
    cases n with
    | mk k s c =>
      have := hl c
      simp only [PyAst.children, PyAst.mk.sizeOf_spec]
      omega
  have h2 : ((n.children.map fun c => (c, n :: anc)).map fun p => sizeOf p.1).sum
      = (n.children.map sizeOf).sum := by
    rw [List.map_map]; rfl
  simp only [List.map_append, List.sum_append, List.map_cons, List.sum_cons]
  omega

/-- The walk of a whole parse tree, starting from the root with no
ancestors. -/
def pyWalk (tree : PyAst) : List (PyAst × List PyAst) :=
  walkP [(tree, [])]

/-- The candidate test of the selection loop: the cursor survives the
three `continue` checks against the node span. -/
def containsCursor (line col : Int) (s : Span) : Bool :=
  !(line < s.lineno || line > s.end_lineno) &&
  !(line == s.lineno && col < s.col_offset) &&
  !(line == s.end_lineno && col > s.end_col_offset)

/-- The size metric of the selection loop:
`(end_line - start_line) * 10000 + (end_col - start_col)`. -/
def spanSize (s : Span) : Int :=
  (s.end_lineno - s.lineno) * 10000 + (s.end_col_offset - s.col_offset)

/-- The node-selection loop of `identify_at_position`: skip nodes without
position attributes, skip nodes not containing the cursor, and keep the
current candidate as `target_node` only while a strictly smaller size
appears (`min_range` starts at infinity, modelled by `none`). -/
def selectLoop (line col : Int) :
    List (PyAst × List PyAst) → Option (PyAst × List PyAst) → Option Int →
    Option (PyAst × List PyAst)
  | [], target, _ => target
  | (n, anc) :: rest, target, minRange =>
    match n.span with
    | none => selectLoop line col rest target minRange
    | some s =>
      if containsCursor line col s then
        let size := spanSize s
        if (match minRange with | none => true | some v => size < v : Bool) then
          selectLoop line col rest (some (n, anc)) (some size)
        else selectLoop line col rest target minRange
      else selectLoop line col rest target minRange

/-- The qualified-name climb inside `_map_node_to_type`: walk the ancestor
chain, prepending the name of every class or function or async-function
definition. -/
def _climb (name : String) : List PyAst → String
  | [] => name
  | a :: rest =>
    match a.kind with
    | NodeKind.classDef n => _climb (n ++ "." ++ name) rest
    | NodeKind.functionDef n => _climb (n ++ "." ++ name) rest
    | NodeKind.asyncFunctionDef n => _climb (n ++ "." ++ name) rest
    | _ => _climb name rest

/-- `_map_node_to_type` from `identifier.py`: classify the selected node,
reconstructing a qualified name for function definitions. -/
def _map_node_to_type (n : PyAst) (ancestors : List PyAst) : Option String :=
  match n.kind with
  | NodeKind.listLit => some "list"
  | NodeKind.listComp => some "list"
  | NodeKind.dictLit => some "dict"
  | NodeKind.dictComp => some "dict"
  | NodeKind.setLit => some "set"
  | NodeKind.setComp => some "set"
  | NodeKind.tupleLit => some "tuple"
  | NodeKind.joinedStr => some "f-string"
  | NodeKind.constStr => some "str"
  | NodeKind.constBool => some "bool"
  | NodeKind.constInt => some "int"
  | NodeKind.constFloat => some "float"
  | NodeKind.constNone => some "None"
  | NodeKind.functionDef fname => some (_climb fname ancestors)
  | NodeKind.asyncFunctionDef fname => some (_climb fname ancestors)
  | _ => none

/-- `identify_at_position` from `identifier.py`.  The first argument is
the outcome of `ast.parse`: `none` models a raised `SyntaxError`, which
the source catches and converts to `None`. -/
def identify_at_position (parsed : Option PyAst) (line col : Int) : Option String :=
  match parsed with
  | none => none
  | some tree =>
    match selectLoop line col (pyWalk tree) none none with
    | none => none
    | some (n, anc) => _map_node_to_type n anc

/-! ## Specification-side definitions (from the wording of spec.md),
used to compare against the code-side definitions above. -/

/-- Containment as the spec words it: `startLine ≤ line ≤ endLine`, and if
`line == startLine` then `column ≥ startColumn`, and if `line == endLine`
then `column ≤ endColumn`. -/
def specContains (line col : Int) (s : Span) : Prop :=
  s.lineno ≤ line ∧ line ≤ s.end_lineno ∧
  (line = s.lineno → s.col_offset ≤ col) ∧
  (line = s.end_lineno → col ≤ s.end_col_offset)

/-- The name segment an ancestor contributes: its own name when it is a
class, function, or async-function definition, nothing otherwise. -/
def defSegName (a : PyAst) : Option String :=
  match a.kind with
  | NodeKind.classDef n => some n
  | NodeKind.functionDef n => some n
  | NodeKind.asyncFunctionDef n => some n
  | _ => none

/-- Qualified-name reconstruction as the spec words it: starting from the
definition name, climb the parent chain; each definition ancestor prepends
its name followed by a dot, non-definition ancestors contribute no
segment. -/
def specQualifiedName (name : String) : List PyAst → String
  | [] => name
  | a :: rest =>
    specQualifiedName
      (match defSegName a with
       | some n => n ++ "." ++ name
       | none => name) rest

/-- The first element of a list attaining the minimum of `f`: a later
element replaces the current best only when strictly smaller, so the
earliest element wins ties. -/
def firstMinBy {α : Type} (f : α → Int) : List α → Option α
  | [] => none
  | a :: rest =>
    match firstMinBy f rest with
    | none => some a
    | some b => if f a ≤ f b then some a else some b

/-- The position-bearing nodes containing the cursor, in traversal order,
each with its span. -/
def candidatesWithSpan (line col : Int) (nodes : List (PyAst × List PyAst)) :
    List ((PyAst × List PyAst) × Span) :=
  nodes.filterMap fun p =>
    match p.1.span with
    | some s => if containsCursor line col s then some (p, s) else none
    | none => none

/-- Merge a current best candidate with the best of the remaining
candidates: the newcomer wins only when strictly smaller. -/
def keepSmaller (cur next : Option ((PyAst × List PyAst) × Span)) :
    Option ((PyAst × List PyAst) × Span) :=
  match cur, next with
  | none, r => r
  | some t, none => some t
  | some t, some b => if spanSize b.2 < spanSize t.2 then some b else some t

/-! ## Concrete environments and entities for witnesses and
counterexamples. -/

/-- An environment in which nothing resolves. -/
def envEmpty : Env :=
  { keywords := [], builtinsAttrs := [], imports := [], sysModules := [],
    builtinModuleNames := [], stdlibModuleNames := some [],
    specOrigins := [], osLibPath := "/usr/lib/python3.11",
    pyVersion := "3.11", keywordHelp := [] }

/-- An environment whose only content is the reserved word `pass`. -/
def envKw : Env :=
  { keywords := ["pass"], builtinsAttrs := [], imports := [], sysModules := [],
    builtinModuleNames := [], stdlibModuleNames := some [],
    specOrigins := [], osLibPath := "/usr/lib/python3.11",
    pyVersion := "3.11", keywordHelp := [("pass", "The pass statement.")] }

/-- Introspection data of the `posixpath.join` function. -/
def joinData : EntityData :=
  { isModule := false, objName := some "join", objModule := some "posixpath",
    objQualname := some "join", docstring := some "Join two or more pathname components.",
    isCallable := true, sigResult := some "(a, *p)", isClass := false,
    isBaseException := false, strRepr := "function join", objId := 7 }

/-- The `posixpath.join` function. -/
def joinEntity : Entity := Entity.mk joinData []

/-- The `posixpath` module object, reachable as `os.path`. -/
def posixpathEntity : Entity :=
  Entity.mk
    { isModule := true, objName := some "posixpath", objModule := none,
      objQualname := none, docstring := some "Common operations on POSIX pathnames.",
      isCallable := false, sigResult := none, isClass := false,
      isBaseException := false, strRepr := "module posixpath", objId := 3 }
    [("join", joinEntity)]

/-- An environment modelling the standard `os.path` aliasing: importing
`os.path` yields the `posixpath` module object, which `sys.modules`
registers under both names. -/
def envOsPath : Env :=
  { keywords := [], builtinsAttrs := [],
    imports := [("os.path", posixpathEntity)],
    sysModules := [("posixpath", posixpathEntity), ("os.path", posixpathEntity)],
    builtinModuleNames := [],
    stdlibModuleNames := some ["os", "posixpath"],
    specOrigins := [], osLibPath := "/usr/lib/python3.11",
    pyVersion := "3.11", keywordHelp := [] }

/-- A second copy of the `os.path` environment, reserved for
the import-descent claim. -/
def envDescent : Env :=
  { keywords := [], builtinsAttrs := [],
    imports := [("os.path", posixpathEntity)],
    sysModules := [("posixpath", posixpathEntity), ("os.path", posixpathEntity)],
    builtinModuleNames := [],
    stdlibModuleNames := some ["os", "posixpath"],
    specOrigins := [], osLibPath := "/usr/lib/python3.11",
    pyVersion := "3.11", keywordHelp := [] }

/-- Introspection data of the `collections.abc.Sequence` class: declared
as defined in the internal module `_collections_abc`, reached through the
access path `collections.abc`. -/
def seqData : EntityData :=
  { isModule := false, objName := some "Sequence", objModule := some "_collections_abc",
    objQualname := some "Sequence", docstring := some "All the operations on a read-only sequence.",
    isCallable := true, sigResult := none, isClass := true,
    isBaseException := false, strRepr := "class Sequence", objId := 11 }

/-- The `collections.abc.Sequence` class. -/
def seqEntity : Entity := Entity.mk seqData []

/-- The `collections.abc` module object. -/
def abcModEntity : Entity :=
  Entity.mk
    { isModule := true, objName := some "collections.abc", objModule := none,
      objQualname := none, docstring := none,
      isCallable := false, sigResult := none, isClass := false,
      isBaseException := false, strRepr := "module collections.abc", objId := 12 }
    [("Sequence", seqEntity)]

/-- The `_collections_abc` module object (distinct registry object from
the `collections.abc` wrapper, as in CPython). -/
def underAbcModEntity : Entity :=
  Entity.mk
    { isModule := true, objName := some "_collections_abc", objModule := none,
      objQualname := none, docstring := none,
      isCallable := false, sigResult := none, isClass := false,
      isBaseException := false, strRepr := "module _collections_abc", objId := 13 }
    [("Sequence", seqEntity)]

/-- An environment in which the access path `collections.abc` is standard
library, but the reached entity declares `_collections_abc` as its
defining module, with no `os.path` aliasing in the registry. -/
def envAbc : Env :=
  { keywords := [], builtinsAttrs := [],
    imports := [("collections.abc", abcModEntity)],
    sysModules := [("collections.abc", abcModEntity), ("_collections_abc", underAbcModEntity)],
    builtinModuleNames := [],
    stdlibModuleNames := some ["collections", "_collections_abc"],
    specOrigins := [], osLibPath := "/usr/lib/python3.11",
    pyVersion := "3.11", keywordHelp := [] }

/-- Introspection data of the builtin class `list`: a non-exception class
whose qualified name has no separator. -/
def listClsData : EntityData :=
  { isModule := false, objName := some "list", objModule := some "builtins",
    objQualname := some "list", docstring := some "Built-in mutable sequence.",
    isCallable := true, sigResult := none, isClass := true,
    isBaseException := false, strRepr := "class list", objId := 21 }

/-- The builtin class `list`. -/
def listClsEntity : Entity := Entity.mk listClsData []

/-- Introspection data of the builtin exception class `ValueError`. -/
def valueErrorData : EntityData :=
  { isModule := false, objName := some "ValueError", objModule := some "builtins",
    objQualname := some "ValueError", docstring := some "Inappropriate argument value.",
    isCallable := true, sigResult := none, isClass := true,
    isBaseException := true, strRepr := "class ValueError", objId := 22 }

/-- The builtin exception class `ValueError`. -/
def valueErrorEntity : Entity := Entity.mk valueErrorData []

/-- An environment with a populated builtins namespace. -/
def envBuiltins : Env :=
  { keywords := [], builtinsAttrs := [("list", listClsEntity), ("ValueError", valueErrorEntity)],
    imports := [], sysModules := [],
    builtinModuleNames := ["builtins"],
    stdlibModuleNames := some ["builtins"],
    specOrigins := [], osLibPath := "/usr/lib/python3.11",
    pyVersion := "3.11", keywordHelp := [] }

/-- The method definition node of the nested example: function `method`
inside class `Inner` inside class `Outer`. -/
def methodNode : PyAst :=
  PyAst.mk (NodeKind.functionDef "method") (some ⟨3, 4, 4, 12⟩) []

/-- The `Inner` class definition node. -/
def innerNode : PyAst :=
  PyAst.mk (NodeKind.classDef "Inner") (some ⟨2, 4, 4, 12⟩) [methodNode]

/-- The `Outer` class definition node. -/
def outerNode : PyAst :=
  PyAst.mk (NodeKind.classDef "Outer") (some ⟨1, 4, 0, 12⟩) [innerNode]

/-- The module node of the nested example (no position attributes, as for
`ast.Module`). -/
def moduleNode0 : PyAst :=
  PyAst.mk NodeKind.moduleNode none [outerNode]

/-! ## Helper lemmas -/

theorem descend_none (env : Env) (segs : List String) (path : String) :
    ∀ i0, (∀ j, j < i0 → descentStepFails env segs j = true) →
      _descend env segs path i0 = none := by
  intro i0
  induction i0 with
  | zero => intro _; rfl
  | succ j ih =>
    intro h
    have hj := h j (Nat.lt_succ_self j)
    have hrest : ∀ k, k < j → descentStepFails env segs k = true :=
      fun k hk => h k (Nat.lt_succ_of_lt hk)
    simp only [_descend]
    simp only [descentStepFails] at hj
    cases hlook : List.lookup (pyJoinDots (segs.take (j+1))) env.imports with
    | none => simp only [hlook]; exact ih hrest
    | some m =>
      rw [hlook] at hj
      simp only [] at hj
      simp only [hlook]
      cases htrav : _traverse_attributes m (segs.drop (j+1)) with
      | none => simp only [htrav]; exact ih hrest
      | some obj => simp [htrav] at hj

theorem descend_success (env : Env) (segs : List String) (path : String) :
    ∀ i0 i, i < i0 →
      (∀ j, i < j → j < i0 → descentStepFails env segs j = true) →
      ∀ m obj, List.lookup (pyJoinDots (segs.take (i+1))) env.imports = some m →
        _traverse_attributes m (segs.drop (i+1)) = some obj →
        _descend env segs path i0 =
          some (_describe env obj (pyJoinDots (segs.take (i+1))) path) := by
  intro i0
  induction i0 with
  | zero => intro i hi; omega
  | succ j ih =>
    intro i hi hfail m obj hlook htrav
    by_cases hij : i = j
    · subst hij
      simp only [_descend, hlook, htrav]
    · have hi2 : i < j := by omega
      have hjf := hfail j (by omega) (Nat.lt_succ_self j)
      have hfail2 : ∀ k, i < k → k < j → descentStepFails env segs k = true :=
        fun k hk1 hk2 => hfail k hk1 (Nat.lt_succ_of_lt hk2)
      have hrec := ih i hi2 hfail2 m obj hlook htrav
      simp only [_descend]
      simp only [descentStepFails] at hjf
      cases hlook2 : List.lookup (pyJoinDots (segs.take (j+1))) env.imports with
      | none => simp only [hlook2]; exact hrec
      | some m2 =>
        rw [hlook2] at hjf
        simp only [] at hjf
        simp only [hlook2]
        cases htrav2 : _traverse_attributes m2 (segs.drop (j+1)) with
        | none => simp only [htrav2]; exact hrec
        | some obj2 => simp [htrav2] at hjf

theorem descend_shape (env : Env) (segs : List String) (path : String) :
    ∀ i0 d, _descend env segs path i0 = some d →
      ∃ obj mp, d = _describe env obj mp path := by
  intro i0
  induction i0 with
  | zero => intro d h; exact absurd h (by simp [_descend])
  | succ j ih =>
    intro d h
    simp only [_descend] at h
    cases hlook : List.lookup (pyJoinDots (segs.take (j+1))) env.imports with
    | none => rw [hlook] at h; exact ih d h
    | some m =>
      rw [hlook] at h
      simp only [] at h
      cases htrav : _traverse_attributes m (segs.drop (j+1)) with
      | none => rw [htrav] at h; simp only [] at h; exact ih d h
      | some obj =>
        rw [htrav] at h
        simp only [Option.some.injEq] at h
        exact ⟨obj, pyJoinDots (segs.take (j+1)), h.symm⟩

theorem alias_scan_skip (mo : Entity) (fm : String) :
    ∀ l : List (String × Entity), List.lookup "os.path" l = none →
      _alias_scan l mo fm = fm := by
  intro l
  induction l with
  | nil => intro _; rfl
  | cons p rest ih =>
    intro h
    obtain ⟨nm, m⟩ := p
    simp only [List.lookup] at h
    cases hbeq : (("os.path" : String) == nm) with
    | true => simp [hbeq] at h
    | false =>
      rw [hbeq] at h
      simp only [] at h
      have hnm : (nm == "os.path") = false := by
        rw [beq_eq_false_iff_ne] at hbeq ⊢
        exact fun hc => hbeq hc.symm
      simp only [_alias_scan, hnm, Bool.and_false]
      simp only [Bool.false_eq_true, if_false]
      exact ih h

theorem stripBuiltins_id (env : Env) (path : String)
    (h : pyStartsWith path "builtins." = true →
      (List.lookup ((pySplitDots (pyDrop path 9)).headD "") env.builtinsAttrs).isNone = true) :
    stripBuiltins env path = path := by
  simp only [stripBuiltins]
  cases hsw : pyStartsWith path "builtins." with
  | false => simp
  | true =>
    have h2 := h hsw
    simp only [if_true]
    cases hlk : List.lookup ((pySplitDots (pyDrop path 9)).headD "") env.builtinsAttrs with
    | none => simp [hlk]
    | some v => rw [hlk] at h2; simp at h2

theorem rdp_ok_shape (env : Env) (p : String) (d : PyDict)
    (h : _resolve_dotted_path env p = Except.ok d) :
    ∃ obj mp, d = _describe env obj mp p := by
  simp only [_resolve_dotted_path] at h
  cases hd : _descend env (pySplitDots p) p (pySplitDots p).length with
  | some d2 =>
    rw [hd] at h
    simp only [Except.ok.injEq] at h
    subst h
    exact descend_shape env (pySplitDots p) p (pySplitDots p).length d2 hd
  | none =>
    rw [hd] at h
    simp only [] at h
    cases hlk : List.lookup ((pySplitDots p).headD "") env.builtinsAttrs with
    | none => rw [hlk] at h; simp at h
    | some obj =>
      rw [hlk] at h
      simp only [] at h
      cases htr : _traverse_attributes obj ((pySplitDots p).drop 1) with
      | none => rw [htr] at h; simp at h
      | some o2 =>
        rw [htr] at h
        simp only [Except.ok.injEq] at h
        exact ⟨o2, "builtins", h.symm⟩

/-! ## Claim theorems -/

/-- C1: For every input path, `resolve_symbol` returns either a structured
record or an error record (it is a total function into `ResolveResult`,
mirroring the outermost exception barrier), and when the keyword check,
the builtins-prefix strip, every import-descent step and the root-builtin
fallback all fail, it returns the error record whose message names the
unresolved path. -/
theorem resolve_symbol_total_and_error (env : Env) (path : String) :
    ((∃ d, resolve_symbol env path = ResolveResult.ok d) ∨
     (∃ m, resolve_symbol env path = ResolveResult.error m)) ∧
    (env.keywords.contains path = false →
     (pyStartsWith path "builtins." = true →
       (List.lookup ((pySplitDots (pyDrop path 9)).headD "") env.builtinsAttrs).isNone = true) →
     (∀ j, j < (pySplitDots path).length →
       descentStepFails env (pySplitDots path) j = true) →
     fallbackFails env (pySplitDots path) = true →
     resolve_symbol env path = ResolveResult.error ("Could not resolve " ++ path)) := by
  constructor
  · cases h : resolve_symbol env path with
    | ok d => exact Or.inl ⟨d, rfl⟩
    | error m => exact Or.inr ⟨m, rfl⟩
  · intro h1 h2 h3 h4
    have hstrip := stripBuiltins_id env path h2
    have hdp : _resolve_dotted_path env path = Except.error ("Could not resolve " ++ path) := by
      simp only [_resolve_dotted_path]
      rw [descend_none env (pySplitDots path) path (pySplitDots path).length h3]
      simp only [fallbackFails] at h4
      cases hlk : List.lookup ((pySplitDots path).headD "") env.builtinsAttrs with
      | none => simp only [hlk]
      | some o =>
        rw [hlk] at h4
        simp only [] at h4
        simp only [hlk]
        cases htr : _traverse_attributes o ((pySplitDots path).drop 1) with
        | none => simp only [htr]
        | some o2 => rw [List.drop_one] at htr; simp [htr] at h4
    simp only [resolve_symbol, h1, Bool.false_eq_true, if_false, hstrip, hdp]

/-- Witness for C1: in an empty environment, resolving `zzz.not.real`
fails every strategy and yields exactly the error record naming it. -/
theorem resolve_symbol_total_and_error_witness :
    resolve_symbol envEmpty "zzz.not.real" =
      ResolveResult.error ("Could not resolve " ++ "zzz.not.real") :=
  (resolve_symbol_total_and_error envEmpty "zzz.not.real").2
    (by decide) (by decide) (by decide) (by decide)

/-- C3: Import descent tries prefixes from the full segment count down to
one, in that order; a step whose import raises is skipped without
propagating, and a loaded module whose remaining segments fail attribute
traversal is abandoned entirely (both outcomes are one failing
`descentStepFails` step, after which the loop continues with the next
shorter prefix); the first prefix, in descending order, whose import and
full traversal both succeed produces the returned description.  Index `i`
stands for the prefix of length `i+1`, so the second conjunct requires
every longer prefix to fail. -/
theorem import_descent_first_success (env : Env) (path : String) :
    ((∀ j, j < (pySplitDots path).length →
        descentStepFails env (pySplitDots path) j = true) →
      _descend env (pySplitDots path) path (pySplitDots path).length = none) ∧
    (∀ i, i < (pySplitDots path).length →
      (∀ j, j < (pySplitDots path).length → i < j →
        descentStepFails env (pySplitDots path) j = true) →
      ∀ m obj,
        List.lookup (pyJoinDots ((pySplitDots path).take (i+1))) env.imports = some m →
        _traverse_attributes m ((pySplitDots path).drop (i+1)) = some obj →
        _descend env (pySplitDots path) path (pySplitDots path).length =
          some (_describe env obj (pyJoinDots ((pySplitDots path).take (i+1))) path)) :=
  ⟨descend_none env (pySplitDots path) path (pySplitDots path).length,
   fun i hi hf m obj hl ht =>
     descend_success env (pySplitDots path) path (pySplitDots path).length i hi
       (fun j hj1 hj2 => hf j hj2 hj1) m obj hl ht⟩

/-- Witness for C3: descending on `os.path.join`, the three-segment prefix
fails to import, the two-segment prefix `os.path` imports and `join`
traverses, so its description is returned. -/
theorem import_descent_first_success_witness :
    _descend envDescent (pySplitDots "os.path.join") "os.path.join"
        (pySplitDots "os.path.join").length =
      some (_describe envDescent joinEntity
        (pyJoinDots ((pySplitDots "os.path.join").take 2)) "os.path.join") :=
  (import_descent_first_success envDescent "os.path.join").2 1 (by decide)
    (by decide) posixpathEntity joinEntity rfl rfl

/-- C2 is false on the code: a successful keyword resolution returns a
record with six keys and no `url` key at all (and, symmetrically,
non-keyword records carry no `kind` key), so no successful resolution
contains all seven claimed fields. -/
theorem resolver_record_seven_fields_cex :
    resolve_symbol envKw "pass" = ResolveResult.ok (_describe_keyword envKw "pass") ∧
    (_describe_keyword envKw "pass").map Prod.fst =
      ["docstring", "signature", "module", "qualname", "kind", "is_stdlib"] ∧
    List.lookup "url" (_describe_keyword envKw "pass") = none :=
  ⟨rfl, rfl, rfl⟩

/-- C2 amended: every successful resolution returns a record with exactly
six fields: keyword resolutions carry `docstring`, `signature`, `module`,
`qualname`, `kind`, `is_stdlib` with `kind` equal to `keyword` (the only
kind value the code ever emits, one of the five enumerated), and
non-keyword resolutions carry `docstring`, `signature`, `module`,
`qualname`, `is_stdlib`, `url` with no `kind` key. -/
theorem resolver_record_fields_amended (env : Env) (path : String) (d : PyDict)
    (h : resolve_symbol env path = ResolveResult.ok d) :
    (d.map Prod.fst = ["docstring", "signature", "module", "qualname", "kind", "is_stdlib"] ∧
     List.lookup "kind" d = some (Value.str "keyword")) ∨
    (d.map Prod.fst = ["docstring", "signature", "module", "qualname", "is_stdlib", "url"] ∧
     List.lookup "kind" d = none) := by
  by_cases hkw : env.keywords.contains path = true
  · left
    simp only [resolve_symbol, hkw, if_true, ResolveResult.ok.injEq] at h
    subst h
    exact ⟨rfl, rfl⟩
  · right
    have hkwf : env.keywords.contains path = false := by
      rw [Bool.not_eq_true] at hkw
      exact hkw
    simp only [resolve_symbol, hkwf, Bool.false_eq_true, if_false] at h
    cases hdp : _resolve_dotted_path env (stripBuiltins env path) with
    | ok d2 =>
      rw [hdp] at h
      simp only [ResolveResult.ok.injEq] at h
      subst h
      obtain ⟨obj, mp, hsh⟩ := rdp_ok_shape env (stripBuiltins env path) d2 hdp
      subst hsh
      exact ⟨rfl, rfl⟩
    | error e => rw [hdp] at h; simp at h

/-- Witness for C2 amended: the keyword record for `pass` falls in the
first disjunct. -/
theorem resolver_record_fields_amended_witness :
    ((_describe_keyword envKw "pass").map Prod.fst =
       ["docstring", "signature", "module", "qualname", "kind", "is_stdlib"] ∧
     List.lookup "kind" (_describe_keyword envKw "pass") = some (Value.str "keyword")) ∨
    ((_describe_keyword envKw "pass").map Prod.fst =
       ["docstring", "signature", "module", "qualname", "is_stdlib", "url"] ∧
     List.lookup "kind" (_describe_keyword envKw "pass") = none) :=
  resolver_record_fields_amended envKw "pass" (_describe_keyword envKw "pass") rfl

/-- C8 is false as stated: in the environment `envAbc`, the access path
`collections.abc` is itself standard-library, yet the description of the
reached entity reports the declared defining module `_collections_abc`,
not the access-path module name — the code computes
`defined_module or module_name` and only rewrites through the hardcoded
`os.path` registry alias. -/
theorem module_field_access_path_cex :
    _is_stdlib envAbc "collections.abc" = true ∧
    resolve_symbol envAbc "collections.abc.Sequence" =
      ResolveResult.ok (_describe envAbc seqEntity "collections.abc" "collections.abc.Sequence") ∧
    List.lookup "module"
        (_describe envAbc seqEntity "collections.abc" "collections.abc.Sequence") =
      some (Value.str "_collections_abc") ∧
    Value.str "_collections_abc" ≠ Value.str "collections.abc" :=
  ⟨rfl, rfl, rfl, by decide⟩

theorem finalModuleOf_declared (env : Env) (obj : Entity) (mn dm : String)
    (hm : obj.data.isModule = false) (hdm : obj.data.objModule = some dm)
    (hne : dm ≠ "") (hnp : List.lookup "os.path" env.sysModules = none) :
    finalModuleOf env obj mn = dm := by
  have hb : (dm == "") = false := beq_eq_false_iff_ne.mpr hne
  have hbne : (dm != "") = true := by simp [bne, hb]
  simp only [finalModuleOf, hm, Bool.false_eq_true, if_false, hdm, hb, hbne, Bool.true_and]
  by_cases hstd : _is_stdlib env dm = true
  · simp only [hstd, if_true]
    cases hlk : List.lookup dm env.sysModules with
    | none => simp [hlk]
    | some mo => simp only [hlk]; exact alias_scan_skip mo dm env.sysModules hnp
  · have hstd2 : _is_stdlib env dm = false := by
      rw [Bool.not_eq_true] at hstd; exact hstd
    simp [hstd2]

theorem describe_module_lookup (env : Env) (obj : Entity) (mn nm : String) :
    List.lookup "module" (_describe env obj mn nm) =
      some (Value.str (finalModuleOf env obj mn)) := rfl

/-- C8 amended: the `module` field equals the declared defining module of
the entity whenever the entity declares a non-empty one (the access-path
module name is used only as a fallback when no declaration exists), except
that a standard-library result whose registry object is also registered
under the alias `os.path` is rewritten to `os.path`; in particular
resolving `os.path.join` yields `module` equal to `os.path` and a URL
containing the `os.path` page name. -/
theorem module_field_amended :
    (∀ (env : Env) (obj : Entity) (mn nm dm : String),
      obj.data.isModule = false → obj.data.objModule = some dm → dm ≠ "" →
      List.lookup "os.path" env.sysModules = none →
      List.lookup "module" (_describe env obj mn nm) = some (Value.str dm)) ∧
    resolve_symbol envOsPath "os.path.join" =
      ResolveResult.ok (_describe envOsPath joinEntity "os.path" "os.path.join") ∧
    List.lookup "module" (_describe envOsPath joinEntity "os.path" "os.path.join") =
      some (Value.str "os.path") ∧
    List.lookup "url" (_describe envOsPath joinEntity "os.path" "os.path.join") =
      some (Value.str "https://docs.python.org/3.11/library/os.path.html#join") := by
  refine ⟨?_, rfl, rfl, rfl⟩
  intro env obj mn nm dm hm hdm hne hnp
  rw [describe_module_lookup, finalModuleOf_declared env obj mn dm hm hdm hne hnp]

/-- Witness for C8 amended: with an empty registry (so no `os.path`
alias), the description of `posixpath.join` reached through `os.path`
reports the declared module `posixpath`. -/
theorem module_field_amended_witness :
    List.lookup "module" (_describe envEmpty joinEntity "os.path" "os.path.join") =
      some (Value.str "posixpath") :=
  module_field_amended.1 envEmpty joinEntity "os.path" "os.path.join" "posixpath"
    rfl rfl (by decide) rfl

/-- C9 is false as stated: the builtin class `list` is a non-exception
class whose qualified name has no separator, and the code routes it to the
value-types page `stdtypes.html`, not to the functions page the claim
assigns to separator-free class-or-callable entities. -/
theorem stdlib_url_routing_cex :
    listClsData.isClass = true ∧ listClsData.isBaseException = false ∧
    pyContainsChar "list" '.' = false ∧
    _get_stdlib_url envBuiltins "builtins" "list" listClsEntity =
      "https://docs.python.org/3.11/library/stdtypes.html#list" ∧
    _get_stdlib_url envBuiltins "builtins" "list" listClsEntity ≠
      "https://docs.python.org/3.11/library/functions.html#list" :=
  ⟨rfl, rfl, rfl, rfl, by decide⟩

/-- C9 amended: for the root builtin namespace, exception classes route to
the exceptions page, every other class routes to the value-types page
regardless of separators, non-class callables route to the value-types
page when their qualified name contains a separator and to the functions
page otherwise, and non-class non-callables route to the page named
`builtins`; for every other standard-library module the URL is the page
named after that module; every route is anchored by the qualified name. -/
theorem stdlib_url_routing_amended (env : Env) (qn : String) (obj : Entity) :
    (obj.data.isClass = true → obj.data.isBaseException = true →
      _get_stdlib_url env "builtins" qn obj = urlBase env ++ "/exceptions.html#" ++ qn) ∧
    (obj.data.isClass = true → obj.data.isBaseException = false →
      _get_stdlib_url env "builtins" qn obj = urlBase env ++ "/stdtypes.html#" ++ qn) ∧
    (obj.data.isClass = false → obj.data.isCallable = true → pyContainsChar qn '.' = true →
      _get_stdlib_url env "builtins" qn obj = urlBase env ++ "/stdtypes.html#" ++ qn) ∧
    (obj.data.isClass = false → obj.data.isCallable = true → pyContainsChar qn '.' = false →
      _get_stdlib_url env "builtins" qn obj = urlBase env ++ "/functions.html#" ++ qn) ∧
    (obj.data.isClass = false → obj.data.isCallable = false →
      _get_stdlib_url env "builtins" qn obj = urlBase env ++ "/" ++ "builtins" ++ ".html#" ++ qn) ∧
    (∀ mn, mn ≠ "builtins" →
      _get_stdlib_url env mn qn obj = urlBase env ++ "/" ++ mn ++ ".html#" ++ qn) := by
  refine ⟨?_, ?_, ?_, ?_, ?_, ?_⟩
  · intro h1 h2; simp [_get_stdlib_url, h1, h2]
  · intro h1 h2; simp [_get_stdlib_url, h1, h2]
  · intro h1 h2 h3; simp [_get_stdlib_url, h1, h2, h3]
  · intro h1 h2 h3; simp [_get_stdlib_url, h1, h2, h3]
  · intro h1 h2; simp [_get_stdlib_url, h1, h2]
  · intro mn hmn
    have hb : (mn == "builtins") = false := beq_eq_false_iff_ne.mpr hmn
    simp [_get_stdlib_url, hb]

/-- Witness for C9 amended: the exception class `ValueError` routes to the
exceptions page anchored by its qualified name. -/
theorem stdlib_url_routing_amended_witness :
    _get_stdlib_url envBuiltins "builtins" "ValueError" valueErrorEntity =
      urlBase envBuiltins ++ "/exceptions.html#" ++ "ValueError" :=
  (stdlib_url_routing_amended envBuiltins "ValueError" valueErrorEntity).1 rfl rfl

/-- C4: For every cursor position, when parsing fails (`ast.parse` raises
`SyntaxError`, modelled by a `none` parse outcome) `identify_at_position`
returns `none`; totality of the embedded function mirrors that the raised
error is caught and nothing propagates. -/
theorem locate_parse_failure_none :
    ∀ (line col : Int), identify_at_position none line col = none :=
  fun _ _ => rfl

/-- C5: The candidate check of the selection loop holds exactly when the
spec containment condition does — `startLine ≤ line ≤ endLine`, with
`column ≥ startColumn` required on the start line and
`column ≤ endColumn` on the end line — and on a well-formed span both the
first and the last position of the span count as inside. -/
theorem contains_cursor_iff_spec :
    (∀ (line col : Int) (s : Span),
      containsCursor line col s = true ↔ specContains line col s) ∧
    (∀ s : Span, s.lineno ≤ s.end_lineno →
      (s.lineno = s.end_lineno → s.col_offset ≤ s.end_col_offset) →
      containsCursor s.lineno s.col_offset s = true ∧
      containsCursor s.end_lineno s.end_col_offset s = true) := by
  have hiff : ∀ (line col : Int) (s : Span),
      containsCursor line col s = true ↔ specContains line col s := by
    intro line col s
    simp only [containsCursor, specContains, Bool.and_eq_true, Bool.not_eq_true',
      Bool.or_eq_false_iff, Bool.and_eq_false_iff, decide_eq_false_iff_not, not_lt,
      beq_eq_false_iff_ne, ne_eq, decide_eq_true_eq]
    constructor <;> intro h <;> omega
  refine ⟨hiff, ?_⟩
  intro s h1 h2
  constructor <;> (rw [hiff]; unfold specContains; omega)

/-- Witness for C5: on the span from line 1 column 0 to line 2 column 5,
both the first position and the last position are classified inside. -/
theorem contains_cursor_iff_spec_witness :
    containsCursor 1 0 ⟨1, 2, 0, 5⟩ = true ∧
    containsCursor 2 5 ⟨1, 2, 0, 5⟩ = true :=
  contains_cursor_iff_spec.2 ⟨1, 2, 0, 5⟩ (by decide) (by decide)

theorem climb_eq_spec : ∀ (ancestors : List PyAst) (name : String),
    _climb name ancestors = specQualifiedName name ancestors := by
  intro ancestors
  induction ancestors with
  | nil => intro name; rfl
  | cons a rest ih =>
    intro name
    cases hk : a.kind <;> simp [_climb, specQualifiedName, defSegName, hk, ih]

/-- C7: For a function or async-function definition node, the classifier
returns its name prefixed, innermost-last, by the name of every ancestor
that is itself a class, function, or async-function definition, each
followed by a dot, non-definition ancestors contributing nothing; in
particular `method` inside class `Inner` inside class `Outer` under the
module node reconstructs to `Outer.Inner.method`. -/
theorem qualified_name_reconstruction :
    (∀ (name : String) (ancestors : List PyAst) (sp : Option Span) (ch : List PyAst),
      _map_node_to_type (PyAst.mk (NodeKind.functionDef name) sp ch) ancestors =
        some (specQualifiedName name ancestors) ∧
      _map_node_to_type (PyAst.mk (NodeKind.asyncFunctionDef name) sp ch) ancestors =
        some (specQualifiedName name ancestors)) ∧
    _map_node_to_type methodNode [innerNode, outerNode, moduleNode0] =
      some "Outer.Inner.method" := by
  refine ⟨fun name ancestors sp ch => ⟨?_, ?_⟩, rfl⟩
  · simp only [_map_node_to_type, PyAst.kind]
    rw [climb_eq_spec]
  · simp only [_map_node_to_type, PyAst.kind]
    rw [climb_eq_spec]

theorem selectLoop_eq (line col : Int) :
    ∀ (l : List (PyAst × List PyAst)) (t : Option ((PyAst × List PyAst) × Span)),
      selectLoop line col l (Option.map Prod.fst t)
          (Option.map (fun q => spanSize q.2) t) =
        Option.map Prod.fst (keepSmaller t (firstMinBy (fun q => spanSize q.2)
          (candidatesWithSpan line col l))) := by
  intro l
  induction l with
  | nil =>
    intro t
    cases t with
    | none => rfl
    | some tq => rfl
  | cons p rest ih =>
    intro t
    obtain ⟨n, anc⟩ := p
    cases hs : n.span with
    | none =>
      have hc : candidatesWithSpan line col ((n, anc) :: rest) =
          candidatesWithSpan line col rest := by
        simp [candidatesWithSpan, hs]
      have hl : ∀ (tg : Option (PyAst × List PyAst)) (mr : Option Int),
          selectLoop line col ((n, anc) :: rest) tg mr =
            selectLoop line col rest tg mr := by
        intro tg mr
        simp only [selectLoop, hs]
      rw [hc, hl]
      exact ih t
    | some s =>
      by_cases hcc : containsCursor line col s = true
      · have hc : candidatesWithSpan line col ((n, anc) :: rest) =
            ((n, anc), s) :: candidatesWithSpan line col rest := by
          simp [candidatesWithSpan, hs, hcc]
        rw [hc]
        cases t with
        | none =>
          have hl : selectLoop line col ((n, anc) :: rest)
                (Option.map Prod.fst (none : Option ((PyAst × List PyAst) × Span)))
                (Option.map (fun q => spanSize q.2)
                  (none : Option ((PyAst × List PyAst) × Span))) =
              selectLoop line col rest (some (n, anc)) (some (spanSize s)) := by
            simp [selectLoop, hs, hcc]
          rw [hl]
          have hr := ih (some ((n, anc), s))
          simp only [Option.map_some'] at hr
          rw [hr]
          cases hfm : firstMinBy (fun q => spanSize q.2)
              (candidatesWithSpan line col rest) with
          | none => simp [firstMinBy, hfm, keepSmaller]
          | some b =>
            simp only [firstMinBy, hfm, keepSmaller]
            by_cases hcb : spanSize s ≤ spanSize b.2
            · rw [if_pos hcb]
              all_goals first
                | rfl | omega
                | (split_ifs <;> first | rfl | omega)
            · rw [if_neg hcb]
              all_goals first
                | rfl | omega
                | (split_ifs <;> first | rfl | omega)
        | some tq =>
          by_cases hlt : spanSize s < spanSize tq.2
          · have hl : selectLoop line col ((n, anc) :: rest)
                  (Option.map Prod.fst (some tq))
                  (Option.map (fun q => spanSize q.2) (some tq)) =
                selectLoop line col rest (some (n, anc)) (some (spanSize s)) := by
              simp only [Option.map_some', selectLoop, hs, hcc, if_true]
              rw [if_pos]
              simpa using hlt
            rw [hl]
            have hr := ih (some ((n, anc), s))
            simp only [Option.map_some'] at hr
            rw [hr]
            cases hfm : firstMinBy (fun q => spanSize q.2)
                (candidatesWithSpan line col rest) with
            | none =>
              simp only [firstMinBy, hfm, keepSmaller]
              split_ifs <;> first | rfl | omega
            | some b =>
              simp only [firstMinBy, hfm, keepSmaller]
              by_cases hcb : spanSize s ≤ spanSize b.2
              · rw [if_pos hcb]
                all_goals first
                  | rfl | omega
                  | (simp only [keepSmaller]; split_ifs <;> first | rfl | omega)
                  | (split_ifs <;> first | rfl | omega)
              · rw [if_neg hcb]
                all_goals first
                  | rfl | omega
                  | (simp only [keepSmaller]; split_ifs <;> first | rfl | omega)
                  | (split_ifs <;> first | rfl | omega)
          · have hl : selectLoop line col ((n, anc) :: rest)
                  (Option.map Prod.fst (some tq))
                  (Option.map (fun q => spanSize q.2) (some tq)) =
                selectLoop line col rest (some tq.1) (some (spanSize tq.2)) := by
              simp only [Option.map_some', selectLoop, hs, hcc, if_true]
              rw [if_neg]
              simpa using hlt
            rw [hl]
            have hr := ih (some tq)
            simp only [Option.map_some'] at hr
            rw [hr]
            cases hfm : firstMinBy (fun q => spanSize q.2)
                (candidatesWithSpan line col rest) with
            | none =>
              simp only [firstMinBy, hfm, keepSmaller]
              split_ifs <;> first | rfl | omega
            | some b =>
              simp only [firstMinBy, hfm, keepSmaller]
              by_cases hcb : spanSize s ≤ spanSize b.2
              · rw [if_pos hcb]
                all_goals first
                  | rfl | omega
                  | (simp only [keepSmaller]; split_ifs <;> first | rfl | omega)
                  | (split_ifs <;> first | rfl | omega)
              · rw [if_neg hcb]
                all_goals first
                  | rfl | omega
                  | (simp only [keepSmaller]; split_ifs <;> first | rfl | omega)
                  | (split_ifs <;> first | rfl | omega)
      · have hccf : containsCursor line col s = false := by
          rw [Bool.not_eq_true] at hcc; exact hcc
        have hc : candidatesWithSpan line col ((n, anc) :: rest) =
            candidatesWithSpan line col rest := by
          simp [candidatesWithSpan, hs, hccf]
        have hl : ∀ (tg : Option (PyAst × List PyAst)) (mr : Option Int),
            selectLoop line col ((n, anc) :: rest) tg mr =
              selectLoop line col rest tg mr := by
          intro tg mr
          simp only [selectLoop, hs, hccf, Bool.false_eq_true, if_false]
        rw [hc, hl]
        exact ih t

theorem firstMinBy_isSome {α : Type} (f : α → Int) (a : α) (l : List α) :
    (firstMinBy f (a :: l)).isSome = true := by
  simp only [firstMinBy]
  cases firstMinBy f l with
  | none => rfl
  | some b =>
    by_cases h : f a ≤ f b
    · simp [h]
    · simp [h]

theorem firstMinBy_min {α : Type} (f : α → Int) :
    ∀ (l : List α) (q : α), firstMinBy f l = some q → ∀ r ∈ l, f q ≤ f r := by
  intro l
  induction l with
  | nil => intro q h; simp [firstMinBy] at h
  | cons a rest ih =>
    intro q h r hr
    simp only [firstMinBy] at h
    cases hfm : firstMinBy f rest with
    | none =>
      rw [hfm] at h
      simp only [] at h
      injection h with h
      subst h
      rcases List.mem_cons.mp hr with hra | hrr
      · subst hra; exact le_refl _
      · cases rest with
        | nil => simp at hrr
        | cons b t =>
          exfalso
          have hsome := firstMinBy_isSome f b t
          rw [hfm] at hsome
          simp at hsome
    | some b =>
      rw [hfm] at h
      simp only [] at h
      by_cases hab : f a ≤ f b
      · rw [if_pos hab] at h
        injection h with h
        subst h
        rcases List.mem_cons.mp hr with hra | hrr
        · subst hra; exact le_refl _
        · exact le_trans hab (ih b hfm r hrr)
      · rw [if_neg hab] at h
        injection h with h
        subst h
        rcases List.mem_cons.mp hr with hra | hrr
        · subst hra; omega
        · exact ih b hfm r hrr

/-- C6: Among the position-bearing nodes containing the cursor, in
traversal order, the selection loop returns exactly the first node
attaining the minimum of `size = (endLine - startLine) * 10000 +
(endColumn - startColumn)` (`firstMinBy`, whose later elements replace the
best only when strictly smaller, so the first-encountered node wins ties),
and the returned candidate is of minimal size among all candidates. -/
theorem locate_smallest_first_wins (tree : PyAst) (line col : Int) :
    selectLoop line col (pyWalk tree) none none =
      Option.map Prod.fst (firstMinBy (fun q => spanSize q.2)
        (candidatesWithSpan line col (pyWalk tree))) ∧
    ((firstMinBy (fun q => spanSize q.2) (candidatesWithSpan line col (pyWalk tree))).all
       fun q => (candidatesWithSpan line col (pyWalk tree)).all
         fun r => decide (spanSize q.2 ≤ spanSize r.2)) = true := by
  constructor
  · have h := selectLoop_eq line col (pyWalk tree) none
    simpa [keepSmaller] using h
  · cases hfm : firstMinBy (fun q => spanSize q.2)
        (candidatesWithSpan line col (pyWalk tree)) with
    | none => rfl
    | some q =>
      simp only [Option.all_some]
      rw [List.all_eq_true]
      intro r hr
      exact decide_eq_true (firstMinBy_min _ _ q hfm r hr)

/-- C10: When the source parses but no position-bearing node of the walk
contains the cursor, `identify_at_position` returns `none` rather than
classifying anything (the module node carries no position attributes and
is skipped, `target_node` stays unset). -/
theorem locate_no_containing_node_none (tree : PyAst) (line col : Int)
    (h : ∀ p ∈ pyWalk tree, ∀ s, p.1.span = some s →
      containsCursor line col s = false) :
    identify_at_position (some tree) line col = none := by
  have hc : candidatesWithSpan line col (pyWalk tree) = [] := by
    rw [candidatesWithSpan, List.filterMap_eq_nil_iff]
    intro p hp
    cases hps : p.1.span with
    | none => simp [hps]
    | some s =>
      have hf := h p hp s hps
      simp [hps, hf]
  have hsel := selectLoop_eq line col (pyWalk tree) none
  rw [hc] at hsel
  simp only [Option.map_none', firstMinBy, keepSmaller] at hsel
  simp [identify_at_position, hsel]

/-- Witness for C10: on the parse tree of an empty module (a single node
without position attributes), every position yields `none`. -/
theorem locate_no_containing_node_none_witness :
    identify_at_position (some (PyAst.mk NodeKind.moduleNode none [])) 1 0 = none := by
  apply locate_no_containing_node_none
  intro p hp s hs
  simp [pyWalk, walkP, PyAst.children] at hp
  rw [hp] at hs
  simp [PyAst.span] at hs

end PyHover
